import Mathlib

/-!
Verification of the transcript-style-analyzer pipeline (`app.py`,
class `TranscriptProcessor`).

The Python source is shallowly embedded below:
* JSON-like values (Python dicts/lists/strings as produced and consumed by
  the pipeline) become the inductive `Json`;
* the retry loop of `analyze_style` becomes an explicit recursion over the
  remaining loop iterations, instrumented with an event trace recording each
  HTTP attempt and each `time.sleep`;
* the single un-retried request of `generate_post_from_style` is embedded
  with the same instrumentation, so the two call sites can be compared;
* `random.sample` and `random.shuffle` are modelled by passing the source of
  randomness explicitly (a list of index choices, resp. the already-shuffled
  pool, since every claim below is about an arbitrary shuffle outcome);
* file writing (`_save_jsonl`, which opens with mode `'w'`, truncating) is
  embedded with an explicit oracle saying which write calls succeed, and a
  file-system record of the two output files' contents.
-/

namespace TranscriptProcessor

/-- JSON-like values: the data manipulated by the pipeline (Python dicts,
lists, strings, numbers, booleans, `None`). Objects are association lists;
the pipeline only ever builds objects with distinct keys. -/
inductive Json where
  | null : Json
  | bool (b : Bool) : Json
  | num (n : Int) : Json
  | str (s : String) : Json
  | arr (elems : List Json) : Json
  | obj (fields : List (String × Json)) : Json

namespace Json

/-- Python dict lookup `d.get(k)` / `d[k]`: first binding of the key, if any.
On a non-dict value Python raises; callers embed that raising branch
explicitly. -/
def get : Json → String → Option Json
  | .obj fields, k =>
    match fields.find? (fun kv => kv.fst == k) with
    | some kv => some kv.snd
    | none => none
  | _, _ => none

end Json

/-- Loop body of `_validate_example` (app.py lines 216-218):
`msg.get('role') != role or 'content' not in msg` ⇒ reject.  A non-dict
`msg` makes `msg.get` raise `AttributeError`, turned into `False` by the
surrounding `except`. -/
def checkMsg (msg : Json) (role : String) : Bool :=
  match msg with
  | .obj _ =>
    (match msg.get "role" with
     | some (.str r) => r == role
     | _ => false) &&
      (msg.get "content").isSome
  | _ => false           -- msg.get raises AttributeError → except → False

/-- Embedding of `_validate_example` (app.py lines 208-224). Returns `false` on every
shape on which the Python body would raise (the `except` clause turns any
exception into `False`), and otherwise mirrors the checks: `messages` (with
default `[]`) must have length 3, and each message must be a dict whose
`role` equals the required role at its position and which contains a
`content` key.  Non-list `messages` values of length 3 (a 3-character
string, a 3-key dict) make `msg.get` raise inside the loop, hence `false`. -/
def _validate_example (ex : Json) : Bool :=
  match ex with
  | .obj _ =>
    match ex.get "messages" with
    | some (.arr messages) =>
      if messages.length ≠ 3 then false
      else
        (messages.zip ["system", "user", "assistant"]).all fun mr =>
          checkMsg mr.fst mr.snd
    | some _ => false    -- len() raises, or the zip yields non-dict items
    | none =>
      -- example.get('messages', []) defaults to []: length 0 ≠ 3
      false
  | _ => false           -- example.get raises AttributeError → except → False

/-- The fixed 14-topic pool (app.py lines 118-123). -/
def topics : List String :=
  ["industry insights", "professional growth", "innovation", "leadership",
   "technology trends", "workplace culture", "success stories", "team building",
   "market analysis", "future predictions", "personal development",
   "problem solving", "change management", "strategic thinking"]

/-- The fixed system message of every generated example (app.py line 131). -/
def exampleSystemPrompt : String :=
  "You are an assistant that writes social media posts matching the speaker's authentic voice and style."

/-- One training example as assembled by `generate_training_examples`
(app.py lines 127-142): `post` is the synthesized assistant text for
`topic`. -/
def mkExample (post : String) (topic : String) : Json :=
  .obj [("messages", .arr
    [.obj [("role", .str "system"), ("content", .str exampleSystemPrompt)],
     .obj [("role", .str "user"),
           ("content", .str ("Write a social media post about " ++ topic))],
     .obj [("role", .str "assistant"), ("content", .str post)]])]

/-- Model of `random.sample(pool, k)`, written with an explicit randomness source:
each entry of `choices` selects (mod the current pool size) one remaining
element, which is removed before the next choice — sampling without
replacement. `choices.length` plays the role of `k`. -/
def sampleWoR : List Nat → List String → List String
  | [], _ => []
  | _ :: _, [] => []
  | c :: cs, pool =>
    let i := c % pool.length
    pool.getD i "" :: sampleWoR cs (pool.eraseIdx i)

/-- Embedding of `create_datasets` (app.py lines 179-191) after the in-place
`random.shuffle`: the argument is the already-shuffled pool, the split index
is `int(len(examples) * 0.8)` — `⌊0.8·N⌋`, embedded as `4 * N / 5` (exact,
since `0.8·N = 4N/5` and `int()` truncates toward zero). -/
def create_datasets (shuffled : List Json) : List Json × List Json :=
  let split_index := 4 * shuffled.length / 5
  (shuffled.take split_index, shuffled.drop split_index)

/-- Embedding of `_save_jsonl` (app.py lines 193-206), instrumented with a write oracle:
`canWrite k` says whether the `k`-th `f.write` call succeeds (disk errors
re-raise after the `except` logs them).  Returns the outcome (`.error ()`
iff a write raised) and the lines present in the file afterwards: the file
was opened with mode `'w'` (truncated), and the `with` block flushes the
lines written before the failure.  Items failing `_validate_example` are
skipped without writing. -/
def saveGo (canWrite : Nat → Bool) (k : Nat) : List Json → Except Unit Unit × List Json
  | [] => (.ok (), [])
  | item :: rest =>
    if _validate_example item then
      if canWrite k then
        let out := saveGo canWrite (k + 1) rest
        (out.fst, item :: out.snd)
      else (.error (), [])
    else saveGo canWrite k rest

/-- Entry point of `_save_jsonl`, from the first write call: see `saveGo`. -/
def _save_jsonl (canWrite : Nat → Bool) (data : List Json) :
    Except Unit Unit × List Json :=
  saveGo canWrite 0 data

/-- Events observable from a remote-call site: an HTTP attempt (`att i` is
the `i`-th `requests.post`, 0-based) or one `time.sleep(self.retry_delay)`. -/
inductive Ev where
  | att (i : Nat) : Ev
  | sleep : Ev
deriving DecidableEq, Repr

/-- The retry loop of `analyze_style` (app.py lines 94-113), from loop index
`attempt` with `remaining` iterations left.  `client i` is the outcome of the
`i`-th `requests.post` + `raise_for_status` + `.json()` (any
`RequestException` is `.error`).  Returns the Python result — `none` when the
`for` loop body never runs and the function falls through returning `None` —
together with the trace of attempts and sleeps.  On a failure at the last
iteration (`remaining = 1`, i.e. `attempt == self.max_retries - 1`) the
exception is re-raised; otherwise the loop sleeps once and continues. -/
def retryGo (client : Nat → Except E Json) (attempt : Nat) :
    Nat → Option (Except E Json) × List Ev
  | 0 => (none, [])
  | remaining + 1 =>
    match client attempt with
    | .ok r => (some (.ok r), [.att attempt])
    | .error e =>
      if remaining = 0 then (some (.error e), [.att attempt])
      else
        let out := retryGo client (attempt + 1) remaining
        (out.fst, .att attempt :: .sleep :: out.snd)

/-- Embedding of `analyze_style` (app.py lines 94-113): the retry loop started at
`attempt = 0` with `max_retries` iterations (`self.max_retries = 3` in the
source). -/
def analyze_style (client : Nat → Except E Json) (max_retries : Nat) :
    Option (Except E Json) × List Ev :=
  retryGo client 0 max_retries

/-- Extraction `response.json()['choices'][0]['message']['content']` (app.py line 177):
`none` means a `KeyError`/`IndexError` — the expected field is absent and
the extraction raises. -/
def extractContent (j : Json) : Option Json :=
  match j.get "choices" with
  | some (.arr (c :: _)) =>
    match c.get "message" with
    | some m => m.get "content"
    | none => none
  | _ => none

/-- Embedding of `generate_post_from_style` (app.py lines 147-177): a single
`requests.post` with **no retry loop** — the one attempt's failure
propagates immediately.  Outcome `.ok (some v)` is a successful extraction,
`.ok none` a response lacking the expected field (the extraction raises),
`.error e` the failed request.  The trace records the attempts and sleeps
issued by this call site. -/
def generate_post_from_style (client : Nat → Except E Json) :
    Except E (Option Json) × List Ev :=
  match client 0 with
  | .ok r => (.ok (extractContent r), [.att 0])
  | .error e => (.error e, [.att 0])

/-- The body of `generate_training_examples`' loop (app.py lines 126-143)
over the already-sampled topic list: `synth t` is the outcome of
`generate_post_from_style(style_analysis, t)`.  A raised exception aborts
the loop, discarding the partial local `examples` list.  The second
component is the list of topics for which a synthesis call was issued. -/
def genLoop (synth : String → Except E String) :
    List String → Except E (List Json) × List String
  | [] => (.ok [], [])
  | t :: ts =>
    match synth t with
    | .error e => (.error e, [t])
    | .ok post =>
      let out := genLoop synth ts
      ((out.fst).map (fun exs => mkExample post t :: exs), t :: out.snd)

/-- Embedding of `generate_training_examples` (app.py lines 115-145): sample 5 topics
from the fixed pool (`choices` is the randomness source, its length is the
sample size 5), then synthesize one post per topic. -/
def generate_training_examples (synth : String → Except E String)
    (choices : List Nat) : Except E (List Json) × List String :=
  genLoop synth (sampleWoR choices topics)

/-- The accumulation loop of `process` (app.py lines 235-239): `gen t` is
the outcome of `analyze_style` + `generate_training_examples` for transcript
`t`.  Returns `all_examples` as accumulated when the loop ends — on the
first failure the run aborts with that error, and the examples extended so
far go with it (the pool's value at abort is the first component). -/
def processLoop (gen : τ → Except E (List Json)) :
    List τ → List Json × Option E
  | [] => ([], none)
  | t :: ts =>
    match gen t with
    | .error e => ([], some e)
    | .ok exs =>
      let out := processLoop gen ts
      (exs ++ out.fst, out.snd)

/-- The two output files (`output/training.jsonl`, `output/validation.jsonl`)
as line lists. -/
structure FS where
  training : List Json
  validation : List Json

/-- Embedding of `create_datasets` including both `_save_jsonl` calls (app.py lines
179-191), acting on the file system: the training file is written first;
opening a file (mode `'w'`) truncates it, so a failing save leaves the lines
written before the failure.  `canWriteT`/`canWriteV` are the write oracles
for the two files. -/
def create_datasets_run (canWriteT canWriteV : Nat → Bool)
    (shuffled : List Json) (fs : FS) : Except Unit Unit × FS :=
  let tv := create_datasets shuffled
  let st := _save_jsonl canWriteT tv.fst
  match st.fst with
  | .error _ => (.error (), { fs with training := st.snd })
  | .ok _ =>
    let sv := _save_jsonl canWriteV tv.snd
    (sv.fst, { training := st.snd, validation := sv.snd })

/-- Embedding of `process` (app.py lines 226-248) from the point where the example pool
is complete or the run has failed: `stagesOutcome` is the combined outcome
of loading, style analysis and example generation (`.ok pool` gives the
full, already-shuffled pool reaching `create_datasets`).  Any failure before
persistence leaves the file system untouched. -/
def process_run (canWriteT canWriteV : Nat → Bool)
    (stagesOutcome : Except Unit (List Json)) (fs : FS) :
    Except Unit Unit × FS :=
  match stagesOutcome with
  | .error e => (.error e, fs)
  | .ok pool => create_datasets_run canWriteT canWriteV pool fs

/-! ### Helper lemmas -/

/-- With an always-succeeding write oracle, `_save_jsonl` succeeds and the
file holds exactly the validator-passing items, in order. -/
theorem saveGo_true (k : Nat) (data : List Json) :
    saveGo (fun _ => true) k data = (.ok (), data.filter _validate_example) := by
  induction data generalizing k with
  | nil => rfl
  | cons item rest ih =>
    by_cases hv : _validate_example item = true
    · simp [saveGo, hv, List.filter_cons, ih (k + 1)]
    · simp [saveGo, hv, List.filter_cons, ih k]

/-- Whatever the write oracle does, only validator-passing items reach the
file. -/
theorem saveGo_valid (canWrite : Nat → Bool) (k : Nat) (data : List Json) :
    ∀ j ∈ (saveGo canWrite k data).snd, _validate_example j = true := by
  induction data generalizing k with
  | nil => intro j hj; simp [saveGo] at hj
  | cons item rest ih =>
    intro j hj
    by_cases hv : _validate_example item = true
    · by_cases hw : canWrite k = true
      · simp only [saveGo, hv, hw, if_true] at hj
        rcases List.mem_cons.mp hj with h | h
        · exact h ▸ hv
        · exact ih (k + 1) j h
      · simp [saveGo, hv, hw] at hj
    · simp only [saveGo, hv, Bool.false_eq_true, if_false] at hj
      exact ih k j hj

end TranscriptProcessor

namespace TranscriptProcessor

/-! ### Claims about the Dataset Builder (C3, C4) -/

/-- **C4** (confirmed). For every pool of `N` examples given to the Dataset
Builder, the shuffled pool is split at index `⌊0.8·N⌋`: indices
`[0, split)` form the training partition and `[split, N)` the validation
partition; the two partitions concatenate back to the pool (so every
example, counted with multiplicity under any predicate, lands in exactly one
partition), their sizes are `⌊0.8·N⌋` and `N − ⌊0.8·N⌋`, and `N = 0` yields
two empty partitions with no error. -/
theorem create_datasets_split_invariants (shuffled : List Json) :
    (create_datasets shuffled).fst = shuffled.take (4 * shuffled.length / 5) ∧
    (create_datasets shuffled).snd = shuffled.drop (4 * shuffled.length / 5) ∧
    (create_datasets shuffled).fst.length = 4 * shuffled.length / 5 ∧
    (create_datasets shuffled).snd.length
      = shuffled.length - 4 * shuffled.length / 5 ∧
    (create_datasets shuffled).fst ++ (create_datasets shuffled).snd
      = shuffled ∧
    (∀ p : Json → Bool,
      (create_datasets shuffled).fst.countP p
        + (create_datasets shuffled).snd.countP p = shuffled.countP p) ∧
    (shuffled = [] →
      (create_datasets shuffled).fst = [] ∧ (create_datasets shuffled).snd = []) := by
  have hle : 4 * shuffled.length / 5 ≤ shuffled.length := by omega
  refine ⟨rfl, rfl, ?_, ?_, ?_, ?_, ?_⟩
  · simp [create_datasets]
    omega
  · simp [create_datasets]
  · simp [create_datasets]
  · intro p
    have h := List.take_append_drop (4 * shuffled.length / 5) shuffled
    calc (create_datasets shuffled).fst.countP p
        + (create_datasets shuffled).snd.countP p
        = ((create_datasets shuffled).fst ++ (create_datasets shuffled).snd).countP p := by
          rw [List.countP_append]
      _ = shuffled.countP p := by rw [show (create_datasets shuffled).fst
            ++ (create_datasets shuffled).snd = shuffled from h]
  · rintro rfl; exact ⟨rfl, rfl⟩

/-- Witness for `create_datasets_split_invariants`: the empty-pool
implication — `N = 0` yields two empty partitions. -/
theorem create_datasets_split_invariants_witness :
    (create_datasets []).fst = [] ∧ (create_datasets []).snd = [] :=
  (create_datasets_split_invariants []).2.2.2.2.2.2 rfl

/-- **C3** (corrected), counterexample. A shuffled pool of `N = 5` examples
of which one — landing in the validation slice — fails the validator:
`N' = 4`, the training file receives `4` examples, but `⌊0.8·N'⌋ = 3`.
The persisted counts sum to `N'`, yet `|training| ≠ ⌊0.8 × N'⌋`: the split
happens before validation, so the claim's second equation fails. -/
theorem dataset_builder_counts_counterexample :
    ¬ (((_save_jsonl (fun _ => true)
          (create_datasets [mkExample "p" "leadership", mkExample "p" "leadership",
            mkExample "p" "leadership", mkExample "p" "leadership", Json.null]).fst).snd.length
        = 4 * ([mkExample "p" "leadership", mkExample "p" "leadership",
            mkExample "p" "leadership", mkExample "p" "leadership",
            Json.null].countP _validate_example) / 5)) := by
  decide

/-- **C3** (corrected), amended claim. For every pool of `N ≥ 0` examples fed
to the Dataset Builder, `|training| + |validation| = N'` where `N' ≤ N` is
the number of examples passing the validator; the training-file count equals
the number of validator-passing examples among the **first `⌊0.8·N⌋`** of
the shuffled pool (not `⌊0.8·N'⌋` in general, since the split precedes the
validation pass); when every example passes, it does equal `⌊0.8·N'⌋`. -/
theorem dataset_builder_counts (pool : List Json) :
    (_save_jsonl (fun _ => true) (create_datasets pool).fst).snd.length
        + (_save_jsonl (fun _ => true) (create_datasets pool).snd).snd.length
      = pool.countP _validate_example ∧
    pool.countP _validate_example ≤ pool.length ∧
    (_save_jsonl (fun _ => true) (create_datasets pool).fst).snd.length
      = (pool.take (4 * pool.length / 5)).countP _validate_example ∧
    ((∀ j ∈ pool, _validate_example j = true) →
      (_save_jsonl (fun _ => true) (create_datasets pool).fst).snd.length
        = 4 * pool.countP _validate_example / 5) := by
  have hsplit := List.take_append_drop (4 * pool.length / 5) pool
  refine ⟨?_, ?_, ?_, ?_⟩
  · unfold _save_jsonl
    rw [saveGo_true, saveGo_true]
    simp only [create_datasets, ← List.countP_eq_length_filter]
    rw [← List.countP_append, hsplit]
  · exact List.countP_le_length _
  · unfold _save_jsonl
    rw [saveGo_true]
    simp [create_datasets, ← List.countP_eq_length_filter]
  · intro hall
    unfold _save_jsonl
    rw [saveGo_true]
    have hins : ∀ j ∈ (create_datasets pool).fst, _validate_example j = true := by
      intro j hj
      exact hall j (List.mem_of_mem_take hj)
    have h1 : (create_datasets pool).fst.filter _validate_example
        = (create_datasets pool).fst := List.filter_eq_self.mpr hins
    have h2 : pool.countP _validate_example = pool.length := by
      rw [List.countP_eq_length]
      exact hall
    rw [h1, h2]
    simp only [create_datasets, List.length_take]
    omega

/-- Witness for `dataset_builder_counts`: the all-valid implication at a
concrete 5-example pool. -/
theorem dataset_builder_counts_witness :
    (_save_jsonl (fun _ => true)
        (create_datasets [mkExample "p" "leadership", mkExample "p" "leadership",
          mkExample "p" "leadership", mkExample "p" "leadership",
          mkExample "p" "leadership"]).fst).snd.length
      = 4 * ([mkExample "p" "leadership", mkExample "p" "leadership",
          mkExample "p" "leadership", mkExample "p" "leadership",
          mkExample "p" "leadership"].countP _validate_example) / 5 :=
  (dataset_builder_counts _).2.2.2 (by decide)

/-! ### Claim about the persistence-time validation pass (C7) -/

/-- **C7** (confirmed). During persistence every item is checked by the
Example Validator: items failing it are skipped — never written and never
raised — so no invalid example appears in the persisted output whatever the
write oracle does; with writes succeeding, the save completes (`.ok`) with
exactly the validator-passing items, and the skipped count accounts for the
rest, so a validation failure is never fatal. -/
theorem save_jsonl_second_pass (data : List Json) (canWrite : Nat → Bool) :
    (∀ j ∈ (_save_jsonl canWrite data).snd, _validate_example j = true) ∧
    (_save_jsonl (fun _ => true) data = (.ok (), data.filter _validate_example)) ∧
    ((_save_jsonl (fun _ => true) data).snd.length
        + data.countP (fun j => ! _validate_example j) = data.length) := by
  refine ⟨saveGo_valid canWrite 0 data, saveGo_true 0 data, ?_⟩
  unfold _save_jsonl
  rw [saveGo_true]
  simp only [← List.countP_eq_length_filter]
  induction data with
  | nil => rfl
  | cons a t ih =>
    by_cases hv : _validate_example a = true <;>
      simp [List.countP_cons, hv] <;> omega

/-- Witness for `save_jsonl_second_pass`: the no-invalid-output conjunct at
a concrete one-example save. -/
theorem save_jsonl_second_pass_witness :
    _validate_example (mkExample "w" "leadership") = true :=
  (save_jsonl_second_pass [mkExample "w" "leadership"] (fun _ => true)).1
    (mkExample "w" "leadership") (List.mem_cons_self _ _)

/-! ### Claim about the Example Validator (C5) -/

/-- Spec-side reading of one message check (for comparison with `checkMsg`):
the `role` field holds exactly the string `r`. -/
def roleIs (m : Json) (r : String) : Bool :=
  match m.get "role" with
  | some (.str s) => s == r
  | _ => false

/-- Spec-side: the message has a `content` field present (any value: the
empty string is accepted; an absent field is rejected). -/
def hasContent (m : Json) : Bool :=
  (m.get "content").isSome

/-- The validity predicate as the spec states it (§4.5), written from the
spec's words to be compared with `_validate_example`: exactly 3 messages,
role sequence exactly system, user, assistant, and a content field present
on every message. -/
def specValidExample (ex : Json) : Bool :=
  match ex.get "messages" with
  | some (.arr [m1, m2, m3]) =>
    roleIs m1 "system" && roleIs m2 "user" && roleIs m3 "assistant" &&
      (hasContent m1 && hasContent m2 && hasContent m3)
  | _ => false

theorem checkMsg_eq_spec (m : Json) (r : String) :
    checkMsg m r = (roleIs m r && hasContent m) := by
  cases m <;> rfl

theorem validate_eq_specValid (ex : Json) :
    _validate_example ex = specValidExample ex := by
  rcases ex with _ | b | n | s | elems | fields
  case null => rfl
  case bool => rfl
  case num => rfl
  case str => rfl
  case arr => rfl
  case obj =>
    unfold _validate_example specValidExample
    rcases h : Json.get (.obj fields) "messages" with _ | j
    · rfl
    · rcases j with _ | b | n | s | ms | f2
      case null => rfl
      case bool => rfl
      case num => rfl
      case str => rfl
      case obj => rfl
      case arr =>
        rcases ms with _ | ⟨m1, _ | ⟨m2, _ | ⟨m3, _ | ⟨m4, rest⟩⟩⟩⟩ <;>
          simp [checkMsg_eq_spec, Bool.and_assoc]
        cases roleIs m1 "system" <;> cases roleIs m2 "user" <;>
          cases roleIs m3 "assistant" <;> cases hasContent m1 <;>
          cases hasContent m2 <;> cases hasContent m3 <;> simp

theorem specValid_iff (ex : Json) :
    specValidExample ex = true ↔
      ∃ m1 m2 m3, ex.get "messages" = some (.arr [m1, m2, m3]) ∧
        roleIs m1 "system" = true ∧ roleIs m2 "user" = true ∧
        roleIs m3 "assistant" = true ∧ hasContent m1 = true ∧
        hasContent m2 = true ∧ hasContent m3 = true := by
  unfold specValidExample
  rcases h : ex.get "messages" with _ | j
  · simp
  · rcases j with _ | b | n | s | ms | f2
    case null => simp
    case bool => simp
    case num => simp
    case str => simp
    case obj => simp
    case arr =>
      rcases ms with _ | ⟨m1, _ | ⟨m2, _ | ⟨m3, _ | ⟨m4, rest⟩⟩⟩⟩ <;>
        simp [Bool.and_assoc, and_assoc]

/-- **C5** (confirmed). The Example Validator returns true iff the example
has exactly 3 messages, the role sequence is exactly system, user,
assistant, and every message has a content field present (empty string
accepted, absent field rejected); being a total Bool-valued function of an
arbitrary JSON-like value, it returns a boolean and never throws — every
branch where the Python body would raise is the value `false`. -/
theorem validate_example_spec (ex : Json) :
    _validate_example ex = specValidExample ex ∧
    (_validate_example ex = true ↔
      ∃ m1 m2 m3, ex.get "messages" = some (.arr [m1, m2, m3]) ∧
        roleIs m1 "system" = true ∧ roleIs m2 "user" = true ∧
        roleIs m3 "assistant" = true ∧ hasContent m1 = true ∧
        hasContent m2 = true ∧ hasContent m3 = true) :=
  ⟨validate_eq_specValid ex, by rw [validate_eq_specValid ex]; exact specValid_iff ex⟩

/-- Witness for `validate_example_spec`: the right-to-left direction of the
iff, applied at a concrete generated example. -/
theorem validate_example_spec_witness :
    _validate_example (mkExample "" "innovation") = true :=
  (validate_example_spec (mkExample "" "innovation")).2.mpr
    ⟨_, _, _, rfl, rfl, rfl, rfl, rfl, rfl, rfl⟩

/-! ### Claims about the retry policy (C2, C1) -/

/-- Number of HTTP attempts recorded in a trace. -/
def attemptsOf (tr : List Ev) : Nat :=
  tr.countP fun e => match e with | .att _ => true | .sleep => false

/-- Number of fixed-delay waits recorded in a trace. -/
def sleepsOf (tr : List Ev) : Nat :=
  tr.countP fun e => match e with | .att _ => false | .sleep => true

/-- **C2** (confirmed). For the style-analysis call with `max_retries = 3`:
(a) a client failing on every attempt yields exactly 3 attempts and exactly
2 fixed-delay waits, then the last error is raised; (b) a client failing on
attempts 1 and 2 and succeeding on attempt 3 yields the successful result
without raising, after exactly 2 waits; (c) a failure on any attempt except
the last is followed in the trace by exactly one delay and then the next
attempt. -/
theorem analyze_style_retry_policy (E : Type) (es : Nat → E) (r : Json) :
    (analyze_style (fun i => (Except.error (es i) : Except E Json)) 3 =
      (some (.error (es 2)), [.att 0, .sleep, .att 1, .sleep, .att 2])) ∧
    (analyze_style
        (fun i => if i < 2 then (Except.error (es i) : Except E Json) else .ok r) 3 =
      (some (.ok r), [.att 0, .sleep, .att 1, .sleep, .att 2])) ∧
    (∀ tr, tr = [Ev.att 0, .sleep, .att 1, .sleep, .att 2] →
      attemptsOf tr = 3 ∧ sleepsOf tr = 2) ∧
    (∀ (client : Nat → Except E Json) (k : Nat), k + 1 < 3 →
      (∀ i, i ≤ k → ∃ e, client i = .error e) →
      ∃ rest, (analyze_style client 3).snd =
          ((List.range (k + 1)).flatMap fun i => [Ev.att i, Ev.sleep]) ++ rest ∧
        rest.head? = some (.att (k + 1))) := by
  refine ⟨rfl, rfl, ?_, ?_⟩
  · rintro tr rfl; exact ⟨rfl, rfl⟩
  · intro client k hk hfail
    have hk2 : k = 0 ∨ k = 1 := by omega
    rcases hk2 with rfl | rfl
    · obtain ⟨e0, h0⟩ := hfail 0 (by omega)
      refine ⟨(retryGo client 1 2).snd, ?_, ?_⟩
      · simp [analyze_style, retryGo, h0, List.range_succ]
      · rcases h1 : client 1 with e1 | r1 <;> simp [retryGo, h1]
    · obtain ⟨e0, h0⟩ := hfail 0 (by omega)
      obtain ⟨e1, h1⟩ := hfail 1 (by omega)
      refine ⟨(retryGo client 2 1).snd, ?_, ?_⟩
      · simp [analyze_style, retryGo, h0, h1, List.range_succ]
      · rcases h2 : client 2 with e2 | r2 <;> simp [retryGo, h2]

/-- Witness for `analyze_style_retry_policy`: part (c) at a concrete
always-failing client, `k = 1`. -/
theorem analyze_style_retry_policy_witness :
    ∃ rest,
      (analyze_style (fun i => (Except.error i : Except Nat Json)) 3).snd =
        ((List.range 2).flatMap fun i => [Ev.att i, Ev.sleep]) ++ rest ∧
      rest.head? = some (.att 2) :=
  (analyze_style_retry_policy Nat (fun i => i) Json.null).2.2.2
    (fun i => (Except.error i : Except Nat Json)) 1 (by omega)
    (fun i _ => ⟨i, rfl⟩)

/-- The canonical well-formed remote response
`{"choices": [{"message": {"role": "assistant", "content": "post"}}]}`. -/
def goodResponse : Json :=
  .obj [("choices", .arr
    [.obj [("message",
      .obj [("role", .str "assistant"), ("content", .str "post")])]])]

/-- **C1** (corrected), counterexample. A client that fails on its first
attempt and would succeed on any later attempt: the retried path
(`analyze_style`, i.e. the resilient API Client the claim says every call
goes through) recovers and returns the result, but the per-topic
post-synthesis call of `generate_post_from_style` issues exactly one
attempt — no retry, no delay — and surfaces the failure immediately.  So
not every remote call is retried up to `maxRetries` attempts. -/
theorem api_client_everywhere_counterexample :
    ((analyze_style (fun i => if i = 0 then .error () else .ok goodResponse) 3).fst
      = some (.ok goodResponse)) ∧
    (generate_post_from_style (fun i => if i = 0 then .error () else .ok goodResponse)
      = (.error (), [.att 0])) ∧
    attemptsOf (generate_post_from_style
      (fun i => if i = 0 then .error () else .ok goodResponse)).snd = 1 ∧
    sleepsOf (generate_post_from_style
      (fun i => if i = 0 then .error () else .ok goodResponse)).snd = 0 :=
  ⟨rfl, rfl, rfl, rfl⟩

/-- **C1** (corrected), amended claim. Only the style-analysis call goes
through the retry loop (up to `max_retries` attempts with a fixed delay
between attempts, the failure surfaced after the last); the per-topic
post-synthesis calls issued by the Example Generator are single direct
requests — exactly one attempt, no retry and no delay — whose failure
surfaces immediately; the Post Synthesizer layer itself performs no
retries. -/
theorem retry_only_in_analyze_style (E : Type) (es : Nat → E)
    (client : Nat → Except E Json) :
    ((analyze_style (fun i => (Except.error (es i) : Except E Json)) 3).snd
      = [.att 0, .sleep, .att 1, .sleep, .att 2]) ∧
    ((generate_post_from_style client).snd = [.att 0]) ∧
    (∀ e, client 0 = .error e → (generate_post_from_style client).fst = .error e) := by
  refine ⟨rfl, ?_, ?_⟩
  · rcases h0 : client 0 with e0 | r0 <;> simp [generate_post_from_style, h0]
  · intro e he
    simp [generate_post_from_style, he]

/-- Witness for `retry_only_in_analyze_style`: the no-retry conjunct at a
concrete always-failing client. -/
theorem retry_only_in_analyze_style_witness :
    (generate_post_from_style (fun _ => (Except.error 7 : Except Nat Json))).fst
      = .error 7 :=
  (retry_only_in_analyze_style Nat (fun _ => 7)
    (fun _ => (Except.error 7 : Except Nat Json))).2.2 7 rfl

end TranscriptProcessor

namespace TranscriptProcessor

/-! ### Claims about the Example Generator (C6, C8, C10) -/

/-- Selecting an in-range element and erasing it is a permutation of the
pool. -/
theorem getD_cons_eraseIdx_perm (d : String) :
    ∀ (l : List String) (i : Nat), i < l.length →
      (l.getD i d :: l.eraseIdx i).Perm l := by
  intro l
  induction l with
  | nil => intro i hi; simp at hi
  | cons a t ih =>
    intro i hi
    cases i with
    | zero => simp
    | succ i =>
      have ht : i < t.length := by simpa using hi
      have hip := ih i ht
      show (t.getD i d :: a :: t.eraseIdx i).Perm (a :: t)
      exact (List.Perm.swap a (t.getD i d) (t.eraseIdx i)).trans (hip.cons a)

theorem sampleWoR_perm_core (d : String) (l : List String) (i : Nat)
    (hi : i < l.length) : (l.getD i d :: l.eraseIdx i).Perm l :=
  getD_cons_eraseIdx_perm d l i hi

/-- A sample has as many elements as there are choices, as long as the pool
is large enough. -/
theorem sampleWoR_length (choices : List Nat) :
    ∀ pool : List String, choices.length ≤ pool.length →
      (sampleWoR choices pool).length = choices.length := by
  induction choices with
  | nil => intro pool _; rfl
  | cons c cs ih =>
    intro pool hlen
    match pool, hlen with
    | p :: ps, hlen =>
      have hi : c % (p :: ps).length < (p :: ps).length :=
        Nat.mod_lt _ (by simp)
      have herase : ((p :: ps).eraseIdx (c % (p :: ps).length)).length
          = (p :: ps).length - 1 := List.length_eraseIdx_of_lt hi
      have hcs : cs.length ≤ ((p :: ps).eraseIdx (c % (p :: ps).length)).length := by
        rw [herase]
        simp only [List.length_cons] at hlen ⊢
        omega
      show ((p :: ps).getD (c % (p :: ps).length) ""
          :: sampleWoR cs ((p :: ps).eraseIdx (c % (p :: ps).length))).length
        = cs.length + 1
      rw [List.length_cons, ih _ hcs]

/-- Every sampled element comes from the pool. -/
theorem sampleWoR_subset (choices : List Nat) :
    ∀ pool : List String, ∀ x ∈ sampleWoR choices pool, x ∈ pool := by
  induction choices with
  | nil => intro pool x hx; simp [sampleWoR] at hx
  | cons c cs ih =>
    intro pool x hx
    match pool with
    | [] => simp [sampleWoR] at hx
    | p :: ps =>
      have hi : c % (p :: ps).length < (p :: ps).length :=
        Nat.mod_lt _ (by simp)
      rcases List.mem_cons.mp hx with rfl | hx
      · have := List.getD_eq_getElem (p :: ps) "" hi
        rw [this]
        exact List.getElem_mem hi
      · exact List.eraseIdx_subset _ _ (ih _ x hx)

/-- Sampling a duplicate-free pool yields distinct elements: without
replacement. -/
theorem sampleWoR_nodup (choices : List Nat) :
    ∀ pool : List String, pool.Nodup → (sampleWoR choices pool).Nodup := by
  induction choices with
  | nil => intro pool _; simp [sampleWoR]
  | cons c cs ih =>
    intro pool hnd
    match pool with
    | [] => simp [sampleWoR]
    | p :: ps =>
      have hi : c % (p :: ps).length < (p :: ps).length :=
        Nat.mod_lt _ (by simp)
      have hperm := sampleWoR_perm_core "" (p :: ps) (c % (p :: ps).length) hi
      have hcons : ((p :: ps).getD (c % (p :: ps).length) ""
          :: (p :: ps).eraseIdx (c % (p :: ps).length)).Nodup :=
        hperm.nodup_iff.mpr hnd
      show ((p :: ps).getD (c % (p :: ps).length) ""
          :: sampleWoR cs ((p :: ps).eraseIdx (c % (p :: ps).length))).Nodup
      obtain ⟨hnotmem, hrest⟩ := List.nodup_cons.mp hcons
      refine List.nodup_cons.mpr ⟨fun hmem => hnotmem ?_, ih _ hrest⟩
      exact sampleWoR_subset cs _ _ hmem

/-- When every synthesis call succeeds, the generation loop issues one call
per topic, in order, and returns one assembled example per topic. -/
theorem genLoop_all_ok (E : Type) (f : String → String) :
    ∀ ts : List String,
      genLoop (E := E) (fun t => .ok (f t)) ts
        = (.ok (ts.map fun t => mkExample (f t) t), ts) := by
  intro ts
  induction ts with
  | nil => rfl
  | cons t ts ih => simp [genLoop, ih, Except.map]

/-- The 14-element topic pool is duplicate-free. -/
theorem topics_nodup : topics.Nodup := by decide

/-- Message list of an assembled example. -/
theorem mkExample_messages (post topic : String) :
    (mkExample post topic).get "messages" = some (.arr
      [.obj [("role", .str "system"), ("content", .str exampleSystemPrompt)],
       .obj [("role", .str "user"),
             ("content", .str ("Write a social media post about " ++ topic))],
       .obj [("role", .str "assistant"), ("content", .str post)]]) := rfl

end TranscriptProcessor

namespace TranscriptProcessor

/-- **C6** (confirmed). For every style analysis, assuming every synthesis
call succeeds: the Example Generator samples 5 distinct topics without
replacement from the fixed 14-topic pool, issues exactly 5 synthesis calls —
one per sampled topic, in order — and returns exactly 5 examples; each
example's user message content is exactly
`"Write a social media post about {topic}"` for its topic, and its system
message is the fixed assistant-persona instruction. -/
theorem generate_training_examples_spec (E : Type) (f : String -> String)
    (choices : List Nat) (h5 : choices.length = 5) :
    (sampleWoR choices topics).length = 5 /\
    (sampleWoR choices topics).Nodup /\
    (forall t, t ∈ sampleWoR choices topics -> t ∈ topics) /\
    (generate_training_examples (E := E) (fun t => .ok (f t)) choices).snd
      = sampleWoR choices topics /\
    (generate_training_examples (E := E) (fun t => .ok (f t)) choices).fst
      = .ok ((sampleWoR choices topics).map fun t => mkExample (f t) t) /\
    (forall p t, (mkExample p t).get "messages" = some (.arr
      [.obj [("role", .str "system"), ("content", .str exampleSystemPrompt)],
       .obj [("role", .str "user"),
             ("content", .str ("Write a social media post about " ++ t))],
       .obj [("role", .str "assistant"), ("content", .str p)]])) := by
  have hlen : choices.length ≤ topics.length := by rw [h5]; decide
  refine ⟨by rw [sampleWoR_length choices topics hlen, h5], ?_, ?_, ?_, ?_, ?_⟩
  · exact sampleWoR_nodup choices topics topics_nodup
  · exact fun t ht => sampleWoR_subset choices topics t ht
  · unfold generate_training_examples
    rw [genLoop_all_ok]
  · unfold generate_training_examples
    rw [genLoop_all_ok]
  · intro p t; rfl

/-- Witness for `generate_training_examples_spec`: the sampled topics, call
log and example count at the all-zero randomness source. -/
theorem generate_training_examples_spec_witness :
    (sampleWoR [0, 0, 0, 0, 0] topics).length = 5 /\
    (generate_training_examples (E := Unit) (fun t => .ok t) [0, 0, 0, 0, 0]).snd
      = sampleWoR [0, 0, 0, 0, 0] topics :=
  ⟨(generate_training_examples_spec Unit id [0, 0, 0, 0, 0] rfl).1,
   (generate_training_examples_spec Unit id [0, 0, 0, 0, 0] rfl).2.2.2.1⟩

/-- **C8** (confirmed). If any individual topic's synthesis call fails, the
failure propagates out of the Example Generator and aborts generation for
that transcript entirely: the generation loop returns an error (no partial
example set is ever returned — the partial local list is discarded), and at
the `process` level a transcript whose generation fails contributes nothing
to the accumulated pool, which at the moment of abort holds exactly the
examples of the earlier, fully successful transcripts. -/
theorem synthesis_failure_aborts (E τ' : Type) (synth : String → Except E String)
    (gen : τ' → Except E (List Json)) (g : τ' → List Json) :
    (∀ ts : List String, (∃ t ∈ ts, ∃ e, synth t = .error e) →
      ∃ e', (genLoop synth ts).fst = .error e') ∧
    (∀ choices : List Nat,
      (∃ t ∈ sampleWoR choices topics, ∃ e, synth t = .error e) →
      ∃ e', (generate_training_examples synth choices).fst = .error e') ∧
    (∀ (pre suf : List τ') (t : τ') (e : E),
      gen t = .error e → (∀ t' ∈ pre, gen t' = .ok (g t')) →
      processLoop gen (pre ++ t :: suf) = ((pre.map g).flatten, some e)) := by
  have gen1 : ∀ ts : List String, (∃ t ∈ ts, ∃ e, synth t = .error e) →
      ∃ e', (genLoop synth ts).fst = .error e' := by
    intro ts hts
    induction ts with
    | nil => simp at hts
    | cons t0 rest ih =>
      rcases h0 : synth t0 with e0 | p0
      · exact ⟨e0, by simp [genLoop, h0]⟩
      · rcases hts with ⟨t, hmem, e, he⟩
        rcases List.mem_cons.mp hmem with rfl | hmem
        · rw [h0] at he; cases he
        · obtain ⟨e', hrec⟩ := ih ⟨t, hmem, e, he⟩
          refine ⟨e', ?_⟩
          simp [genLoop, h0, hrec, Except.map]
  refine ⟨gen1, fun choices h => gen1 _ h, ?_⟩
  intro pre suf t e hfail hpre
  induction pre with
  | nil => simp [processLoop, hfail]
  | cons a pre ih =>
    have ha : gen a = .ok (g a) := hpre a (List.mem_cons_self a pre)
    have hrest : ∀ t' ∈ pre, gen t' = .ok (g t') :=
      fun t' ht' => hpre t' (List.mem_cons_of_mem a ht')
    simp [processLoop, ha, ih hrest]

/-- Witness for `synthesis_failure_aborts`: an always-failing synthesizer on
a one-topic list, and a failing first transcript with an empty prefix. -/
theorem synthesis_failure_aborts_witness :
    (∃ e', (genLoop (fun _ => (Except.error 0 : Except Nat String))
        ["leadership"]).fst = .error e') ∧
    processLoop (fun _ : Nat => (Except.error 0 : Except Nat (List Json)))
        ([] ++ 0 :: [1]) = (([] : List (List Json)).flatten, some 0) :=
  ⟨(synthesis_failure_aborts Nat Nat (fun _ => .error 0)
      (fun _ => .error 0) (fun _ => [])).1
      ["leadership"] ⟨"leadership", by simp, 0, rfl⟩,
   (synthesis_failure_aborts Nat Nat (fun _ => .error 0)
      (fun _ => .error 0) (fun _ => [])).2.2 [] [1] 0 0 rfl (by simp)⟩

/-- Every example assembled by the generator passes the validator. -/
theorem validate_mkExample (post topic : String) :
    _validate_example (mkExample post topic) = true := rfl

/-- **C10** (confirmed). Every example constructed by the Example Generator
passes the Example Validator: whatever the style analysis, sampled topics
and successful synthesis results, each returned example has exactly 3
messages with roles system, user, assistant in order and a content field on
each, so the persistence-time validation pass drops nothing produced by the
normal pipeline. -/
theorem generated_examples_pass_validator (E : Type) (f : String → String)
    (choices : List Nat) :
    (∀ post topic, _validate_example (mkExample post topic) = true) ∧
    (generate_training_examples (E := E) (fun t => .ok (f t)) choices).fst
      = .ok ((sampleWoR choices topics).map fun t => mkExample (f t) t) ∧
    (∀ exs, (generate_training_examples (E := E) (fun t => .ok (f t)) choices).fst
        = .ok exs → exs.filter _validate_example = exs) := by
  refine ⟨fun post topic => validate_mkExample post topic, ?_, ?_⟩
  · unfold generate_training_examples
    rw [genLoop_all_ok]
  · intro exs hexs
    unfold generate_training_examples at hexs
    rw [genLoop_all_ok] at hexs
    have : exs = (sampleWoR choices topics).map fun t => mkExample (f t) t := by
      have := congrArg (fun o => o) hexs
      exact (Except.ok.inj hexs).symm
    subst this
    refine List.filter_eq_self.mpr ?_
    intro a ha
    obtain ⟨t, _, rfl⟩ := List.mem_map.mp ha
    exact validate_mkExample (f t) t

/-- Witness for `generated_examples_pass_validator`: the filter-drops-nothing
implication at the all-zero randomness source. -/
theorem generated_examples_pass_validator_witness :
    ((sampleWoR [0, 0, 0, 0, 0] topics).map fun t => mkExample t t).filter
        _validate_example
      = (sampleWoR [0, 0, 0, 0, 0] topics).map fun t => mkExample t t :=
  (generated_examples_pass_validator Unit id [0, 0, 0, 0, 0]).2.2 _
    (generated_examples_pass_validator Unit id [0, 0, 0, 0, 0]).2.1

/-! ### Claim about output-file atomicity (C9) -/

/-- Contents of an output file left over from an earlier run. -/
def oldLine : Json := .str "old"

/-- **C9** (corrected), counterexample. A run over the two-example pool
`[mkExample "a" "innovation", mkExample "b" "leadership"]` whose
validation-file write fails: the run fails, the training file holds this
run's complete training output, but the validation file — truncated by
opening with mode `'w'` before the failing write — holds neither this run's
validation output nor the prior contents.  So a failing execution can leave
the two files in a mixed state: the claim's both-or-neither disjunction is
false. -/
theorem mixed_output_files_counterexample :
    ((process_run (fun _ => true) (fun _ => false)
        (.ok [mkExample "a" "innovation", mkExample "b" "leadership"])
        ⟨[oldLine], [oldLine]⟩).fst = .error ()) ∧
    (create_datasets [mkExample "a" "innovation", mkExample "b" "leadership"]
      = ([mkExample "a" "innovation"], [mkExample "b" "leadership"])) ∧
    ((process_run (fun _ => true) (fun _ => false)
        (.ok [mkExample "a" "innovation", mkExample "b" "leadership"])
        ⟨[oldLine], [oldLine]⟩).snd.training = [mkExample "a" "innovation"]) ∧
    ((process_run (fun _ => true) (fun _ => false)
        (.ok [mkExample "a" "innovation", mkExample "b" "leadership"])
        ⟨[oldLine], [oldLine]⟩).snd.validation = []) ∧
    ¬ (((process_run (fun _ => true) (fun _ => false)
          (.ok [mkExample "a" "innovation", mkExample "b" "leadership"])
          ⟨[oldLine], [oldLine]⟩).snd.training = [mkExample "a" "innovation"] ∧
        (process_run (fun _ => true) (fun _ => false)
          (.ok [mkExample "a" "innovation", mkExample "b" "leadership"])
          ⟨[oldLine], [oldLine]⟩).snd.validation = [mkExample "b" "leadership"]) ∨
       ((process_run (fun _ => true) (fun _ => false)
          (.ok [mkExample "a" "innovation", mkExample "b" "leadership"])
          ⟨[oldLine], [oldLine]⟩).snd.training = [oldLine] ∧
        (process_run (fun _ => true) (fun _ => false)
          (.ok [mkExample "a" "innovation", mkExample "b" "leadership"])
          ⟨[oldLine], [oldLine]⟩).snd.validation = [oldLine])) := by
  refine ⟨rfl, rfl, rfl, rfl, ?_⟩
  rintro (⟨-, hv⟩ | ⟨ht, -⟩)
  · have hred : (process_run (fun _ => true) (fun _ => false)
        (.ok [mkExample "a" "innovation", mkExample "b" "leadership"])
        ⟨[oldLine], [oldLine]⟩).snd.validation = [] := rfl
    rw [hred] at hv
    exact List.noConfusion hv
  · have hred : (process_run (fun _ => true) (fun _ => false)
        (.ok [mkExample "a" "innovation", mkExample "b" "leadership"])
        ⟨[oldLine], [oldLine]⟩).snd.training = [mkExample "a" "innovation"] := rfl
    rw [hred] at ht
    have h1 : mkExample "a" "innovation" = oldLine := List.head_eq_of_cons_eq ht
    simp [mkExample, oldLine] at h1

/-- **C9** (corrected), amended claim. When a run fails at any stage before
persistence, training.jsonl and validation.jsonl are both untouched (since
persistence only happens after full aggregation); a run whose writes all
succeed overwrites both files with this run's complete output.  A failure
during the persistence writes themselves, however, can leave the files
partially overwritten — e.g. the training file complete and the validation
file truncated — because each file is truncated on open and written in
place. -/
theorem run_failure_file_effects (pool : List Json) (fs : FS)
    (cwT cwV : Nat → Bool) :
    (process_run cwT cwV (.error ()) fs = (.error (), fs)) ∧
    (process_run (fun _ => true) (fun _ => true) (.ok pool) fs =
      (.ok (), ⟨(create_datasets pool).fst.filter _validate_example,
                (create_datasets pool).snd.filter _validate_example⟩)) := by
  refine ⟨rfl, ?_⟩
  simp [process_run, create_datasets_run, _save_jsonl, saveGo_true]

end TranscriptProcessor
